import Mathlib

/-
Verification development for the eeaieejento agent core.

Shallow embedding of the turn/tool-calling orchestration engine translated
from the repository sources:
  src/eeaieejento/tools/file_ops.py   (sandboxed filesystem tools)
  src/eeaieejento/tools/memory.py     (persona memory store)
  src/eeaieejento/tools/weather.py    (dummy weather tool)
  src/eeaieejento/tools/__init__.py   (tool registry, validation, dispatch)
  src/eeaieejento/agent.py            (turn engine, loop and conversation
                                       controllers)
  src/eeaieejento/cli.py              (caller of the resume path)

Modelling conventions: machine filesystem state is an association list from
canonical path component lists to entries; external collaborators (network
tools, stat timestamps) are parameters; the model backend is abstracted by
quantifying over the per-turn tool-call sets it produces.
-/

/-! ## JSON-ish argument values (tool-call arguments) -/

/-- A tool-call argument value as delivered by the model backend.  Mirrors the
JSON values the source receives in `func["arguments"]`. -/
inductive Value where
  | null
  | str (s : String)
  | num (n : Int)
  | bool (b : Bool)
deriving DecidableEq

/-- An argument mapping, `name -> value` (Python dict of a tool call). -/
def Args : Type := List (String × Value)

/-- Python `args.get(key)`: first binding wins. -/
def getArg : List (String × Value) → String → Option Value
  | [], _ => none
  | (k, v) :: rest, key => if key = k then some v else getArg rest key

/-- Python `key in args` (dict key membership). -/
def argHas (args : List (String × Value)) (key : String) : Bool :=
  (getArg args key).isSome

/-- Python `str(v)` rendering of an argument value. -/
def pyStr : Value → String
  | Value.null => "None"
  | Value.str s => s
  | Value.num n => toString n
  | Value.bool b => if b then "True" else "False"

/-- Reads a string-typed argument as the handlers receive it.  The source
passes the raw value through; only string values occur in the behaviours the
specification describes (a non-string value fails inside the handler). -/
def argStr (args : List (String × Value)) (key : String) : String :=
  match getArg args key with
  | some (Value.str s) => s
  | _ => ""

/-- Reads an optional integer argument (`args.get("offset")` etc.). -/
def argIntOpt (args : List (String × Value)) (key : String) : Option Int :=
  match getArg args key with
  | some (Value.num n) => some n
  | _ => none

/-! ## Path model (file_ops.safe_path)

Paths are modelled as component lists; an absolute canonical path is the list
of its components from the filesystem root.  Symbolic links are outside the
model: canonicalisation is pure `..`/`.` elimination, as performed by
`Path.resolve` on a link-free tree.  The workspace root is assumed to be given
in canonical form (in the source it is built from the process working
directory without relative parts). -/

/-- Generic list-of-components starts-with test (used for the containment
check `base_dir in resolved.parents or resolved == base_dir`). -/
def startsWithL {α : Type} [DecidableEq α] : List α → List α → Bool
  | [], _ => true
  | _ :: _, [] => false
  | a :: as, b :: bs => if a = b then startsWithL as bs else false

/-- Python `path.split("/")` (non-empty separator): splits on every slash,
keeping empty pieces. -/
def splitSlashAux (acc : List Char) : List Char → List String
  | [] => [String.mk acc.reverse]
  | c :: rest =>
      if c = '/' then String.mk acc.reverse :: splitSlashAux [] rest
      else splitSlashAux (c :: acc) rest

/-- True when the textual path is absolute (starts with a slash). -/
def isAbs (path : String) : Bool :=
  match path.data with
  | '/' :: _ => true
  | _ => false

/-- Canonicalisation of a component list: drops empty and `.` components and
lets `..` consume the preceding component (clamping at the root), as
`Path.resolve` does on a link-free tree. -/
def resolveComps (comps : List String) : List String :=
  comps.foldl
    (fun acc c =>
      if c = "" ∨ c = "." then acc
      else if c = ".." then acc.dropLast
      else acc ++ [c])
    []

/-- Model of `(base_dir / path).resolve()`: joining a relative path to the
canonical base (an absolute argument replaces the base), then canonicalising. -/
def resolvePath (path : String) (base : List String) : List String :=
  if isAbs path then resolveComps (splitSlashAux [] path.data)
  else resolveComps (base ++ splitSlashAux [] path.data)

/-- file_ops.safe_path: returns the canonical path when it is the base
directory itself or a descendant of it, `none` otherwise. -/
def safe_path (path : String) (base : List String) : Option (List String) :=
  let resolved := resolvePath path base
  if startsWithL base resolved then some resolved else none

/-! ## Filesystem state -/

/-- A filesystem entry: a regular file with textual content, or a directory. -/
inductive Entry where
  | file (content : String)
  | dir
deriving DecidableEq

/-- Filesystem state: association list from canonical paths to entries
(first binding wins; updates keep keys unique). -/
def FS : Type := List (List String × Entry)

/-- Lookup of a canonical path. -/
def fsGet : List (List String × Entry) → List String → Option Entry
  | [], _ => none
  | (q, e) :: rest, p => if p = q then some e else fsGet rest p

/-- Update-or-insert of a canonical path. -/
def fsSet : List (List String × Entry) → List String → Entry → List (List String × Entry)
  | [], p, e => [(p, e)]
  | (q, e0) :: rest, p, e => if p = q then (q, e) :: rest else (q, e0) :: fsSet rest p e

/-- Removal of a canonical path (Python `unlink` / `rmdir`). -/
def fsRemove : List (List String × Entry) → List String → List (List String × Entry)
  | [], _ => []
  | (q, e) :: rest, p => if p = q then rest else (q, e) :: fsRemove rest p

/-- True when some entry lies strictly below `r` (non-empty directory). -/
def hasChild (fs : List (List String × Entry)) (r : List String) : Bool :=
  fs.any (fun kv => (kv.fst != r) && startsWithL r kv.fst)

/-- Creates the missing ancestors of `p` as directories
(`mkdir(parents=True, exist_ok=True)` bookkeeping). -/
def ensureDirs (fs : List (List String × Entry)) (p : List String) :
    List (List String × Entry) :=
  p.inits.foldl
    (fun f q =>
      if q = [] then f
      else match fsGet f q with
        | some _ => f
        | none => fsSet f q Entry.dir)
    fs

/-! ## Python string primitives used by the tools -/

/-- Python `sep.join(parts)` for a list of strings. -/
def pyJoin (sep : String) : List String → String
  | [] => ""
  | [x] => x
  | x :: y :: rest => x ++ sep ++ pyJoin sep (y :: rest)

/-- Scanner for substring containment: true when `pat` occurs in the list,
starting at any position. -/
def containsAux (pat : List Char) : List Char → Bool
  | [] => false
  | c :: rest => startsWithL pat (c :: rest) || containsAux pat rest

/-- Python `pat in s` on strings (empty pattern always contained). -/
def pyContains (s pat : List Char) : Bool :=
  pat.isEmpty || containsAux pat s

/-- Python `s.count(pat)` for a non-empty pattern `p :: pt`: counts
non-overlapping occurrences left to right.  `skip` is the number of positions
still covered by the previous match, where no new occurrence may begin. -/
def countAux (p : Char) (pt : List Char) : List Char → Nat → Nat
  | [], _ => 0
  | _ :: rest, skip + 1 => countAux p pt rest skip
  | c :: rest, 0 =>
      if startsWithL (p :: pt) (c :: rest) then 1 + countAux p pt rest pt.length
      else countAux p pt rest 0

/-- Python `s.count(pat)` (empty pattern counts `len(s) + 1`). -/
def pyCount (s pat : List Char) : Nat :=
  match pat with
  | [] => s.length + 1
  | p :: pt => countAux p pt s 0

/-- Replacement of the first occurrence for a non-empty pattern. -/
def replaceAux (p : Char) (pt rep : List Char) : List Char → List Char
  | [] => []
  | c :: rest =>
      if startsWithL (p :: pt) (c :: rest) then rep ++ rest.drop pt.length
      else c :: replaceAux p pt rep rest

/-- Python `s.replace(pat, rep, 1)`. -/
def pyReplace1 (s pat rep : List Char) : List Char :=
  match pat with
  | [] => rep ++ s
  | p :: pt => replaceAux p pt rep s

/-- Python `s.split()` on whitespace runs, dropping empty pieces. -/
def splitWsAux (acc : List Char) : List Char → List (List Char)
  | [] => if acc = [] then [] else [acc.reverse]
  | c :: rest =>
      if c.isWhitespace then
        if acc = [] then splitWsAux [] rest
        else acc.reverse :: splitWsAux [] rest
      else splitWsAux (c :: acc) rest

/-- Python `" ".join(s.split())` (whitespace normalisation in edit_file). -/
def pyNormWs (s : String) : String :=
  pyJoin " " ((splitWsAux [] s.data).map String.mk)

/-- Python `s.splitlines(keepends)` restricted to newline separators. -/
def splitlinesAux (keep : Bool) (acc : List Char) : List Char → List (List Char)
  | [] => if acc = [] then [] else [acc.reverse]
  | c :: rest =>
      if c = '\n' then (acc.reverse ++ if keep then ['\n'] else []) :: splitlinesAux keep [] rest
      else splitlinesAux keep (c :: acc) rest

/-- Clamps a Python slice index into `[0, len]` (negative counts from the
end). -/
def sliceIdx (len : Nat) (i : Int) : Nat :=
  if i < 0 then ((len : Int) + i).toNat else min i.toNat len

/-- Python `l[a:b]`. -/
def pySlice {α : Type} (l : List α) (a b : Int) : List α :=
  (l.take (sliceIdx l.length b)).drop (sliceIdx l.length a)

/-! ## file_ops.py tools -/

/-- The fixed sandbox-violation result of every filesystem tool. -/
def sandboxError : String := "エラー: ディレクトリ外へのアクセスは禁止されています"

/-- file_ops.read_file. -/
def read_file (path : String) (base : List String) (offset limit : Option Int)
    (fs : List (List String × Entry)) : String × List (List String × Entry) :=
  match safe_path path base with
  | none => (sandboxError, fs)
  | some r =>
    match fsGet fs r with
    | none => ("エラー: ファイルが存在しません: " ++ path, fs)
    | some Entry.dir => ("エラー: ファイルではありません: " ++ path, fs)
    | some (Entry.file content) =>
        let lines := (splitlinesAux true [] content.data).map String.mk
        let total := lines.length
        if offset.isSome || limit.isSome then
          let start : Int := offset.getD 0
          let stop : Int :=
            match limit with
            | some l => if l = 0 then (total : Int) else start + l
            | none => (total : Int)
          let header := "[" ++ path ++ ": 行 " ++ toString (start + 1) ++ "-" ++
            toString (min stop (total : Int)) ++ " / 全" ++ toString total ++ "行]\n"
          (header ++ String.join (pySlice lines start stop), fs)
        else (content, fs)

/-- file_ops.write_file.  A directory at the target surfaces the caught
IsADirectoryError as an error string (OS message text modelled). -/
def write_file (path content : String) (base : List String)
    (fs : List (List String × Entry)) : String × List (List String × Entry) :=
  match safe_path path base with
  | none => (sandboxError, fs)
  | some r =>
    match fsGet fs r with
    | some Entry.dir => ("エラー: ディレクトリです: " ++ path, fs)
    | _ => ("書き込み完了: " ++ path, fsSet (ensureDirs fs r.dropLast) r (Entry.file content))

/-- file_ops.append_file (opening in append mode creates a missing file). -/
def append_file (path content : String) (base : List String)
    (fs : List (List String × Entry)) : String × List (List String × Entry) :=
  match safe_path path base with
  | none => (sandboxError, fs)
  | some r =>
    match fsGet fs r with
    | some Entry.dir => ("エラー: ディレクトリです: " ++ path, fs)
    | some (Entry.file c) => ("追記完了: " ++ path, fsSet fs r (Entry.file (c ++ content)))
    | none => ("追記完了: " ++ path, fsSet (ensureDirs fs r.dropLast) r (Entry.file content))

/-- file_ops.delete_file.  `rmdir` of a non-empty directory surfaces the
caught OSError as an error string (OS message text modelled); model entries
are always files or directories, so the final source fallback is
unreachable. -/
def delete_file (path : String) (base : List String)
    (fs : List (List String × Entry)) : String × List (List String × Entry) :=
  match safe_path path base with
  | none => (sandboxError, fs)
  | some r =>
    match fsGet fs r with
    | none => ("エラー: ファイルが存在しません: " ++ path, fs)
    | some (Entry.file _) => ("削除完了: " ++ path, fsRemove fs r)
    | some Entry.dir =>
        if hasChild fs r then ("エラー: ディレクトリが空ではありません: " ++ path, fs)
        else ("ディレクトリ削除完了: " ++ path, fsRemove fs r)

/-- file_ops.mkdir.  An existing file at the target surfaces the caught
FileExistsError as an error string (OS message text modelled). -/
def mkdir (path : String) (base : List String)
    (fs : List (List String × Entry)) : String × List (List String × Entry) :=
  match safe_path path base with
  | none => (sandboxError, fs)
  | some r =>
    match fsGet fs r with
    | some (Entry.file _) => ("エラー: ファイルが存在します: " ++ path, fs)
    | _ => ("ディレクトリ作成完了: " ++ path, ensureDirs fs r)

/-- Line numbering from 1 (Python `enumerate(lines, 1)`). -/
def numberFrom (i : Nat) : List String → List (Nat × String)
  | [] => []
  | x :: rest => (i, x) :: numberFrom (i + 1) rest

/-- file_ops.grep_file. -/
def grep_file (path pattern : String) (base : List String)
    (fs : List (List String × Entry)) : String × List (List String × Entry) :=
  match safe_path path base with
  | none => (sandboxError, fs)
  | some r =>
    match fsGet fs r with
    | none => ("エラー: ファイルが存在しません: " ++ path, fs)
    | some Entry.dir => ("エラー: ファイルではありません: " ++ path, fs)
    | some (Entry.file content) =>
        let lines := (splitlinesAux false [] content.data).map String.mk
        let found := (numberFrom 1 lines).filterMap
          (fun il =>
            if pyContains il.snd.data pattern.data then
              some (toString il.fst ++ ": " ++ il.snd)
            else none)
        if found = [] then
          ("パターン \x27" ++ pattern ++ "\x27 は見つかりませんでした", fs)
        else (pyJoin "\n" found, fs)

/-- file_ops.file_info.  `mt` supplies the formatted stat mtime, an external
observation not captured by the pure filesystem state. -/
def file_info (path : String) (base : List String) (mt : List String → String)
    (fs : List (List String × Entry)) : String × List (List String × Entry) :=
  match safe_path path base with
  | none => (sandboxError, fs)
  | some r =>
    match fsGet fs r with
    | none => ("エラー: ファイルが存在しません: " ++ path, fs)
    | some (Entry.file c) =>
        ("パス: " ++ path ++ "\nサイズ: " ++ toString c.utf8ByteSize ++ " bytes\n行数: " ++
          toString (splitlinesAux false [] c.data).length ++ "\n更新日時: " ++ mt r, fs)
    | some Entry.dir =>
        ("パス: " ++ path ++ "\nタイプ: ディレクトリ\n更新日時: " ++ mt r, fs)

/-- Immediate children of a directory, as (name, isDirectory) pairs. -/
def childEntries (fs : List (List String × Entry)) (r : List String) :
    List (String × Bool) :=
  fs.filterMap
    (fun kv =>
      if kv.fst.dropLast == r && !kv.fst.isEmpty then
        some (kv.fst.getLastD "",
          match kv.snd with
          | Entry.dir => true
          | _ => false)
      else none)

/-- Insertion into a name-sorted child list. -/
def insertEntry (x : String × Bool) : List (String × Bool) → List (String × Bool)
  | [] => [x]
  | y :: rest => if x.fst < y.fst then x :: y :: rest else y :: insertEntry x rest

/-- Name sorting of a child list (Python `sorted(resolved.iterdir())`). -/
def sortEntries : List (String × Bool) → List (String × Bool)
  | [] => []
  | x :: rest => insertEntry x (sortEntries rest)

/-- file_ops.list_files. -/
def list_files (path : String) (base : List String)
    (fs : List (List String × Entry)) : String × List (List String × Entry) :=
  match safe_path path base with
  | none => (sandboxError, fs)
  | some r =>
    match fsGet fs r with
    | none => ("エラー: ディレクトリが存在しません: " ++ path, fs)
    | some (Entry.file _) => ("エラー: ディレクトリではありません: " ++ path, fs)
    | some Entry.dir =>
        (pyJoin "\n" ((sortEntries (childEntries fs r)).map
          (fun e => e.fst ++ if e.snd then "/" else "")), fs)

/-- file_ops.edit_file: exact-substring search/replace with a
whitespace-normalised re-check purely to pick the error message. -/
def edit_file (path search rep : String) (base : List String)
    (fs : List (List String × Entry)) : String × List (List String × Entry) :=
  match safe_path path base with
  | none => (sandboxError, fs)
  | some r =>
    match fsGet fs r with
    | none => ("エラー: ファイルが存在しません: " ++ path, fs)
    | some Entry.dir => ("エラー: ファイルではありません: " ++ path, fs)
    | some (Entry.file content) =>
        if pyContains content.data search.data = false then
          if pyContains (pyNormWs content).data (pyNormWs search).data = false then
            ("エラー: 検索文字列が見つかりません", fs)
          else
            ("エラー: 検索文字列が見つかりません（空白やインデントが異なる可能性があります）", fs)
        else
          let count := pyCount content.data search.data
          if count > 1 then
            ("エラー: 検索文字列が" ++ toString count ++
              "箇所見つかりました。より具体的な文字列を指定してください", fs)
          else
            ("編集完了: " ++ path,
              fsSet fs r (Entry.file (String.mk (pyReplace1 content.data search.data rep.data))))

/-! ## memory.py (persona memory store)

The persona memory directory is modelled as an association list from file
name (`category ++ ".md"`) to document content. -/

/-- Persona memory state. -/
def MemFS : Type := List (String × String)

/-- Document lookup by file name. -/
def memGet : List (String × String) → String → Option String
  | [], _ => none
  | (k, v) :: rest, key => if key = k then some v else memGet rest key

/-- Document write (update-or-insert). -/
def memSet : List (String × String) → String → String → List (String × String)
  | [], key, v => [(key, v)]
  | (k, v0) :: rest, key, v =>
      if key = k then (k, v) :: rest else (k, v0) :: memSet rest key v

/-- memory.MEMORY_CATEGORIES. -/
def MEMORY_CATEGORIES : List String := ["identity", "user", "knowledge", "journal", "projects"]

/-- memory.WRITABLE_CATEGORIES. -/
def WRITABLE_CATEGORIES : List String := ["user", "knowledge", "journal", "projects"]

/-- memory.read_memory. -/
def read_memory (category : String) (mem : List (String × String)) : String :=
  if category ∈ MEMORY_CATEGORIES then
    (memGet mem (category ++ ".md")).getD ""
  else "エラー: 不明なカテゴリ: " ++ category

/-- memory.update_memory.  The file path is `category ++ ".md"`; on append the
existing document is the read-back content, or the empty string when the file
is absent. -/
def update_memory (category content mode : String) (mem : List (String × String)) :
    String × List (String × String) :=
  if category ∈ WRITABLE_CATEGORIES then
    if mode ∈ (["replace", "append"] : List String) then
      ("メモリ更新完了: " ++ category ++ " (" ++ mode ++ ")",
        if mode = "replace" then memSet mem (category ++ ".md") content
        else memSet mem (category ++ ".md")
          (if (memGet mem (category ++ ".md")).getD "" ≠ "" then
            (memGet mem (category ++ ".md")).getD "" ++ "\n" ++ content
          else content))
    else ("エラー: 不明なモード: " ++ mode, mem)
  else ("エラー: " ++ category ++ "は書き込み禁止です", mem)

/-! ## weather.py -/

/-- weather.get_weather (dummy table lookup). -/
def get_weather (city : String) : String :=
  (List.lookup city [("東京", "はれ"), ("大阪", "ぶた"), ("ニューヨーク", "ブリザード")]).getD "不明"

/-! ## tools/__init__.py (registry, validation, dispatch) -/

/-- The `name -> required parameters` table built from CONVERSATION_TOOLS
(`_TOOL_SCHEMA` in the source).  get_weather is absent: WEATHER_TOOL is not
part of ALL_TOOLS. -/
def TOOL_SCHEMA : List (String × List String) :=
  [("read_file", ["path"]),
   ("write_file", ["path", "content"]),
   ("append_file", ["path", "content"]),
   ("edit_file", ["path", "search", "replace"]),
   ("delete_file", ["path"]),
   ("list_files", ["path"]),
   ("mkdir", ["path"]),
   ("grep_file", ["path", "pattern"]),
   ("file_info", ["path"]),
   ("read_memory", ["category"]),
   ("update_memory", ["category", "content", "mode"]),
   ("web_search", ["query"]),
   ("web_fetch", ["url"]),
   ("http_request", ["method", "url"]),
   ("end_conversation", [])]

/-- `_TOOL_SCHEMA.get(name, [])`. -/
def schemaRequired (name : String) : List String :=
  (List.lookup name TOOL_SCHEMA).getD []

/-- `_validate_args` in the source: checks only the presence of every
required parameter name among the argument keys, and on any missing name
formats a message from the missing and required name lists. -/
def validate_args (name : String) (args : List (String × Value)) : Option String :=
  if (schemaRequired name).filter (fun r => !argHas args r) = [] then none
  else
    some ("エラー: " ++ name ++ "() に必須パラメータが不足: " ++
      pyJoin ", " ((schemaRequired name).filter (fun r => !argHas args r)) ++
      "。必要: " ++ pyJoin ", " (schemaRequired name))

/-- External network collaborators of the web tools (out-of-scope business
logic, §2 of the design): each field maps the request to the textual result
the handler would produce. -/
structure Net where
  webSearch : String → Value → String
  webFetch : String → String
  httpRequest : String → String → Value → Value → String

/-- The `dispatch` table body of call_tool: runs the named handler on the
argument values.  `wsRoot` is the canonical workspace root, `mt` the external
stat-mtime observation for file_info. -/
def dispatch_tool (net : Net) (mt : List String → String) (name : String)
    (args : List (String × Value)) (wsRoot : List String)
    (mem : List (String × String)) (ws : List (List String × Entry)) :
    String × List (String × String) × List (List String × Entry) :=
  match name with
  | "get_weather" => (get_weather (argStr args "city"), mem, ws)
  | "read_file" =>
      let r := read_file (argStr args "path") wsRoot (argIntOpt args "offset")
        (argIntOpt args "limit") ws
      (r.fst, mem, r.snd)
  | "write_file" =>
      let r := write_file (argStr args "path") (argStr args "content") wsRoot ws
      (r.fst, mem, r.snd)
  | "append_file" =>
      let r := append_file (argStr args "path") (argStr args "content") wsRoot ws
      (r.fst, mem, r.snd)
  | "edit_file" =>
      let r := edit_file (argStr args "path") (argStr args "search")
        (argStr args "replace") wsRoot ws
      (r.fst, mem, r.snd)
  | "delete_file" =>
      let r := delete_file (argStr args "path") wsRoot ws
      (r.fst, mem, r.snd)
  | "list_files" =>
      let r := list_files (argStr args "path") wsRoot ws
      (r.fst, mem, r.snd)
  | "mkdir" =>
      let r := mkdir (argStr args "path") wsRoot ws
      (r.fst, mem, r.snd)
  | "grep_file" =>
      let r := grep_file (argStr args "path") (argStr args "pattern") wsRoot ws
      (r.fst, mem, r.snd)
  | "file_info" =>
      let r := file_info (argStr args "path") wsRoot mt ws
      (r.fst, mem, r.snd)
  | "read_memory" => (read_memory (argStr args "category") mem, mem, ws)
  | "update_memory" =>
      let r := update_memory (argStr args "category") (argStr args "content")
        (argStr args "mode") mem
      (r.fst, r.snd, ws)
  | "web_search" =>
      (net.webSearch (argStr args "query") ((getArg args "max_results").getD (Value.num 5)),
        mem, ws)
  | "web_fetch" => (net.webFetch (argStr args "url"), mem, ws)
  | "http_request" =>
      (net.httpRequest (argStr args "method") (argStr args "url")
        ((getArg args "headers").getD Value.null) ((getArg args "body").getD Value.null),
        mem, ws)
  | _ => ("不明なツール: " ++ name, mem, ws)

/-- tools.call_tool: validation of required parameters, then dispatch. -/
def call_tool (net : Net) (mt : List String → String) (name : String)
    (args : List (String × Value)) (wsRoot : List String)
    (mem : List (String × String)) (ws : List (List String × Entry)) :
    String × List (String × String) × List (List String × Entry) :=
  match validate_args name args with
  | some error => (error, mem, ws)
  | none => dispatch_tool net mt name args wsRoot mem ws

/-! ## agent.py: turn engine fragments -/

/-- A chat message (role and content; the optional tool-call payload of
assistant messages is carried separately and never consulted by the history
rebuilds). -/
structure Msg where
  role : String
  content : String
deriving DecidableEq

/-- A tool call produced by the model. -/
structure ToolCall where
  name : String
  args : List (String × Value)

/-- `func["arguments"].get("reason", "")` rendered into the acknowledgement. -/
def getReason (args : List (String × Value)) : String :=
  pyStr ((getArg args "reason").getD (Value.str ""))

/-- One tool call processed inside chat_turn (agent.py lines 76-91): the
turn engine answers `end_conversation` itself; every other name goes through
call_tool.  Returns the tool-result text (the content of the appended `tool`
message) and the updated stores. -/
def processToolCall (net : Net) (mt : List String → String) (tc : ToolCall)
    (wsRoot : List String) (mem : List (String × String))
    (ws : List (List String × Entry)) :
    String × List (String × String) × List (List String × Entry) :=
  if tc.name = "end_conversation" then
    ("会話終了を希望しました。" ++ getReason tc.args, mem, ws)
  else call_tool net mt tc.name tc.args wsRoot mem ws

/-- Python `l[-n:]`. -/
def lastN {α : Type} (n : Nat) (l : List α) : List α :=
  l.drop (l.length - n)

/-- History rebuild of run_agent (agent.py line 117): one fresh system
message prepended to the last 9 messages verbatim. -/
def rebuildAgent (sysPrompt : String) (messages : List Msg) : List Msg :=
  { role := "system", content := sysPrompt } :: lastN 9 messages

/-- History rebuild of run_conversation (agent.py lines 174-178): one fresh
system message prepended to the last 9 non-system messages. -/
def rebuildConv (sysPrompt : String) (msgs : List Msg) : List Msg :=
  { role := "system", content := sysPrompt } ::
    lastN 9 (msgs.filter (fun m => m.role != "system"))

/-! ## agent.py: multi-agent conversation controller

The model backend is abstracted by the per-turn tool-call name sets it
produces: `ts` lists, for each of the up to `max_turns` loop iterations, the
names of the tool calls of that turn. -/

/-- One record of the append-only conversation log. -/
inductive LogRec where
  | start (persona_a persona_b : String)
  | turn (i : Nat) (persona : String) (tools : List String)
  | endr (reason : String)
  | reflect (persona : String)
deriving DecidableEq

/-- The turn loop of run_conversation (agent.py lines 166-207): writes one
turn record per iteration, closes with reason "both_ended" when a turn uses
end_conversation and the pending-end flag from the previous turn is set,
resets the flag on any turn without end_conversation, and falls through to
reason "max_turns" when the iterations are exhausted. -/
def convLoop (pa pb : String) : List (List String) → Bool → Nat → List LogRec
  | [], _, _ => [LogRec.endr "max_turns"]
  | t :: rest, prevEnded, i =>
      LogRec.turn i (if i % 2 = 0 then pa else pb) t ::
        (if "end_conversation" ∈ t then
          (if prevEnded then [LogRec.endr "both_ended"]
           else convLoop pa pb rest true (i + 1))
        else convLoop pa pb rest false (i + 1))

/-- The full conversation log of run_conversation: start record, turn loop,
then one reflection record per persona. -/
def convLog (pa pb : String) (ts : List (List String)) : List LogRec :=
  LogRec.start pa pb ::
    (convLoop pa pb ts false 0 ++ [LogRec.reflect pa, LogRec.reflect pb])

/-! ## Resume bookkeeping (cli.py resume path)

cli.py imports `load_conversation_log` from the agent module and forwards
`resume_from` into run_conversation, but neither is present under src; the
definition below models the missing part from the specification. -/

/-- Bookkeeping state reconstructed from a conversation log tail. -/
structure ResumeState where
  persona_a : String
  persona_b : String
  next_turn : Nat
  next_is_a : Bool
  pendingEnd : Bool
deriving DecidableEq

/-- First start record of a log. -/
def findStart : List LogRec → Option (String × String)
  | [] => none
  | LogRec.start a b :: _ => some (a, b)
  | LogRec.turn _ _ _ :: rest => findStart rest
  | LogRec.endr _ :: rest => findStart rest
  | LogRec.reflect _ :: rest => findStart rest

/-- Last turn record of a log. -/
def lastTurn : List LogRec → Option (Nat × String × List String)
  | [] => none
  | LogRec.turn i p t :: rest => some ((lastTurn rest).getD (i, p, t))
  | LogRec.start _ _ :: rest => lastTurn rest
  | LogRec.endr _ :: rest => lastTurn rest
  | LogRec.reflect _ :: rest => lastTurn rest

/-- Modelled from the spec: `load_conversation_log` (imported by cli.py from
the agent module but absent from src).  Re-derives the two persona identities
from the start record and reconstructs the bookkeeping state — which
persona speaks next, the next turn index, and the pending-end flag — from
the last turn record of the log tail, without replaying model calls. -/
def load_conversation_log (log : List LogRec) : Option ResumeState :=
  match findStart log with
  | none => none
  | some (a, b) =>
      match lastTurn log with
      | none => some ⟨a, b, 0, true, false⟩
      | some (i, _, tools) =>
          some ⟨a, b, i + 1, decide ((i + 1) % 2 = 0), decide ("end_conversation" ∈ tools)⟩

/-- A trivial network stub (concrete instantiations). -/
def netStub : Net :=
  { webSearch := fun _ _ => "", webFetch := fun _ => "", httpRequest := fun _ _ _ _ => "" }

/-- A trivial stat-mtime stub (concrete instantiations). -/
def mtStub : List String → String := fun _ => "2025-01-01 00:00:00"

/-! ## General lemmas about the embedded primitives -/

/-- startsWithL decides the starts-with relation. -/
theorem startsWithL_iff {α : Type} [DecidableEq α] :
    ∀ a b : List α, startsWithL a b = true ↔ ∃ t, a ++ t = b
  | [], b => by simp [startsWithL]
  | a :: as, [] => by simp [startsWithL]
  | a :: as, b :: bs => by
      constructor
      · intro h
        by_cases hab : a = b
        · subst hab
          rw [startsWithL, if_pos rfl] at h
          obtain ⟨t, ht⟩ := (startsWithL_iff as bs).mp h
          exact ⟨t, by rw [List.cons_append, ht]⟩
        · rw [startsWithL, if_neg hab] at h
          exact absurd h (by simp)
      · rintro ⟨t, ht⟩
        rw [List.cons_append] at ht
        injection ht with h1 h2
        subst h1
        rw [startsWithL, if_pos rfl]
        exact (startsWithL_iff as bs).mpr ⟨t, h2⟩

/-- A document just written is the one read back. -/
theorem memGet_memSet_self (m : List (String × String)) (k v : String) :
    memGet (memSet m k v) k = some v := by
  induction m with
  | nil => simp [memSet, memGet]
  | cons kv rest ih =>
      obtain ⟨k0, v0⟩ := kv
      by_cases h : k = k0
      · subst h
        simp [memSet, memGet]
      · simp [memSet, memGet, h, ih]

/-! ## C7: update_memory replace/append semantics -/

/-- C7.  For every writable category: replace makes the stored document
exactly the given content; append makes it the existing document, one
separating newline, then the new content — or the new content verbatim when
the document was absent or empty.  In particular appending "A" then "B" to an
initially empty category stores "A\nB", and the same calls with replace store
"B". -/
theorem C7_update_memory_modes :
    (∀ (cat content : String) (mem : List (String × String)),
      cat ∈ WRITABLE_CATEGORIES →
        (update_memory cat content "replace" mem).1 =
          "メモリ更新完了: " ++ cat ++ " (replace)" ∧
        memGet (update_memory cat content "replace" mem).2 (cat ++ ".md") = some content ∧
        (update_memory cat content "append" mem).1 =
          "メモリ更新完了: " ++ cat ++ " (append)" ∧
        memGet (update_memory cat content "append" mem).2 (cat ++ ".md") =
          some (if (memGet mem (cat ++ ".md")).getD "" = "" then content
                else (memGet mem (cat ++ ".md")).getD "" ++ "\n" ++ content)) ∧
    memGet (update_memory "journal" "B" "append"
      (update_memory "journal" "A" "append" []).2).2 "journal.md" = some "A\nB" ∧
    memGet (update_memory "journal" "B" "replace"
      (update_memory "journal" "A" "replace" []).2).2 "journal.md" = some "B" := by
  refine ⟨fun cat content mem h => ?_, by decide, by decide⟩
  unfold update_memory
  simp only [if_pos h,
    if_pos (show ("replace" : String) ∈ (["replace", "append"] : List String) by decide),
    if_pos (show ("append" : String) ∈ (["replace", "append"] : List String) by decide),
    if_pos (show ("replace" : String) = "replace" from rfl),
    if_neg (show ¬ ("append" : String) = "replace" by decide)]
  refine ⟨?_, memGet_memSet_self _ _ _, ?_, ?_⟩
  · simp only [String.append_assoc]
    rfl
  · simp only [String.append_assoc]
    rfl
  by_cases he : (memGet mem (cat ++ ".md")).getD "" = ""
  · rw [if_neg (by simp [he]), if_pos he]
    exact memGet_memSet_self _ _ _
  · rw [if_pos he, if_neg he]
    exact memGet_memSet_self _ _ _

/-- Witness for C7 at category "journal" on the empty store. -/
theorem C7_update_memory_modes_witness :
    (update_memory "journal" "X" "replace" []).1 = "メモリ更新完了: journal (replace)" ∧
    memGet (update_memory "journal" "X" "replace" []).2 "journal.md" = some "X" ∧
    (update_memory "journal" "X" "append" []).1 = "メモリ更新完了: journal (append)" ∧
    memGet (update_memory "journal" "X" "append" []).2 "journal.md" =
      some (if (memGet [] "journal.md").getD "" = "" then "X"
            else (memGet [] "journal.md").getD "" ++ "\n" ++ "X") :=
  C7_update_memory_modes.1 "journal" "X" [] (by decide)

/-! ## C8: update_memory rejection paths -/

/-- C8.  A category outside the writable set (in particular identity) is
rejected with an error string and the store is unchanged; a mode outside
replace/append is rejected with an error string and the store is unchanged. -/
theorem C8_update_memory_rejects (cat content mode : String)
    (mem : List (String × String)) :
    (cat ∉ WRITABLE_CATEGORIES →
      update_memory cat content mode mem = ("エラー: " ++ cat ++ "は書き込み禁止です", mem)) ∧
    (cat ∈ WRITABLE_CATEGORIES → mode ∉ (["replace", "append"] : List String) →
      update_memory cat content mode mem = ("エラー: 不明なモード: " ++ mode, mem)) := by
  constructor
  · intro h
    unfold update_memory
    rw [if_neg h]
  · intro h1 h2
    unfold update_memory
    rw [if_pos h1, if_neg h2]

/-- Witness for C8: identity is rejected, and an unknown mode is rejected,
with the store unchanged. -/
theorem C8_update_memory_rejects_witness :
    update_memory "identity" "x" "replace" [] = ("エラー: identityは書き込み禁止です", []) ∧
    update_memory "journal" "x" "delete" [] = ("エラー: 不明なモード: delete", []) :=
  ⟨(C8_update_memory_rejects "identity" "x" "replace" []).1 (by decide),
   (C8_update_memory_rejects "journal" "x" "delete" []).2 (by decide) (by decide)⟩

/-! ## C9: end_conversation handled inside the turn engine -/

/-- C9 (amended).  A tool call named end_conversation is answered by the turn
engine itself: the stores are untouched and the appended tool message is the
fixed acknowledgement prefix followed by the rendering of the optional reason
argument; the registry itself does not know the tool (dispatching it would
produce the unknown-tool sentinel). -/
theorem C9_end_conversation_turn_engine (args : List (String × Value)) (net : Net)
    (mt : List String → String) (wsRoot : List String)
    (mem : List (String × String)) (ws : List (List String × Entry)) :
    processToolCall net mt { name := "end_conversation", args := args } wsRoot mem ws =
      ("会話終了を希望しました。" ++ getReason args, mem, ws) ∧
    (call_tool net mt "end_conversation" args wsRoot mem ws).1 =
      "不明なツール: end_conversation" := by
  constructor
  · rfl
  · rfl

/-- C9 counterexample: the appended tool message is not one fixed string —
it varies with the reason argument of the call. -/
theorem C9_counterexample :
    (processToolCall netStub mtStub
      { name := "end_conversation", args := [("reason", Value.str "疲れたから")] } [] [] []).1 ≠
    (processToolCall netStub mtStub
      { name := "end_conversation", args := [] } [] [] []).1 := by
  decide

/-! ## C10: argument validation checks key presence only -/

/-- C10.  Validation passes exactly when every required parameter name is a
key of the argument mapping, whatever the associated values; when it passes,
call_tool proceeds to the dispatch table (the handler is invoked). -/
theorem C10_validation_presence_only (name : String) (args : List (String × Value)) :
    (validate_args name args = none ↔ ∀ r ∈ schemaRequired name, argHas args r = true) ∧
    (validate_args name args = none → ∀ (net : Net) (mt : List String → String)
      (wsRoot : List String) (mem : List (String × String)) (ws : List (List String × Entry)),
      call_tool net mt name args wsRoot mem ws = dispatch_tool net mt name args wsRoot mem ws) := by
  constructor
  · have key : validate_args name args = none ↔
        (schemaRequired name).filter (fun r => !argHas args r) = [] := by
      unfold validate_args
      by_cases hf : (schemaRequired name).filter (fun r => !argHas args r) = []
      · rw [if_pos hf]
        simp [hf]
      · rw [if_neg hf]
        simp [hf]
    rw [key, List.filter_eq_nil_iff]
    constructor
    · intro h r hr
      have := h r hr
      simpa using this
    · intro h r hr
      simpa using h r hr
  · intro h net mt wsRoot mem ws
    unfold call_tool
    rw [h]

/-- Witness for C10: a required parameter bound to null passes validation and
the handler path is taken. -/
theorem C10_validation_presence_only_witness :
    (validate_args "web_fetch" [("url", Value.null)] = none ↔
      ∀ r ∈ schemaRequired "web_fetch", argHas [("url", Value.null)] r = true) ∧
    call_tool netStub mtStub "web_fetch" [("url", Value.null)] [] [] [] =
      dispatch_tool netStub mtStub "web_fetch" [("url", Value.null)] [] [] [] :=
  ⟨(C10_validation_presence_only "web_fetch" [("url", Value.null)]).1,
   (C10_validation_presence_only "web_fetch" [("url", Value.null)]).2 (by decide)
     netStub mtStub [] [] []⟩

/-! ## C2: history rebuilds and system messages -/

/-- C2 counterexample: after iteration 0 of run_agent (history
`[system, user, assistant]`), the iteration-1 rebuild keeps the stale system
message inside the last-9 tail, so the history carries two system messages. -/
theorem C2_counterexample :
    ((rebuildAgent "s1" (rebuildAgent "s0" [] ++
        [{ role := "user", content := "u" }, { role := "assistant", content := "a" }])).filter
      (fun m => m.role == "system")).length = 2 := by
  decide

/-- C2 (amended).  The run_conversation rebuild yields exactly one fresh
system message followed by at most the last 9 non-system messages; the
run_agent rebuild puts the fresh system message first but keeps the last 9
prior messages verbatim, which may include stale system messages. -/
theorem C2_history_rebuilds (s : String) (msgs : List Msg) :
    (rebuildConv s msgs).head? = some { role := "system", content := s } ∧
    (∀ m ∈ (rebuildConv s msgs).tail, m.role ≠ "system") ∧
    (rebuildConv s msgs).tail.length ≤ 9 ∧
    (rebuildAgent s msgs).head? = some { role := "system", content := s } ∧
    (rebuildAgent s msgs).tail = lastN 9 msgs := by
  refine ⟨rfl, ?_, ?_, rfl, rfl⟩
  · intro m hm
    have hm2 : m ∈ msgs.filter (fun m => m.role != "system") :=
      List.mem_of_mem_drop hm
    have := List.of_mem_filter hm2
    simpa using this
  · show (lastN 9 (msgs.filter (fun m => m.role != "system"))).length ≤ 9
    unfold lastN
    rw [List.length_drop]
    omega

/-! ## C1: mutual end-of-conversation consensus -/

/-- Occurrence of the both_ended close in the turn loop, for any starting
flag and starting index: the loop closes exactly when its first turn uses
end_conversation while the flag is set, or some adjacent pair of turns both
use end_conversation. -/
theorem convLoop_both_ended (pa pb : String) :
    ∀ (ts : List (List String)) (prev : Bool) (i : Nat),
      LogRec.endr "both_ended" ∈ convLoop pa pb ts prev i ↔
        ((prev = true ∧ 0 < ts.length ∧ "end_conversation" ∈ ts.getD 0 []) ∨
         ∃ j, j + 1 < ts.length ∧ "end_conversation" ∈ ts.getD j [] ∧
           "end_conversation" ∈ ts.getD (j + 1) [])
  | [], prev, i => by simp [convLoop]
  | t :: rest, prev, i => by
      by_cases he : "end_conversation" ∈ t
      · cases prev with
        | true =>
            constructor
            · intro _
              exact Or.inl ⟨rfl, by simp, by simpa using he⟩
            · intro _
              simp [convLoop, he]
        | false =>
            have ih := convLoop_both_ended pa pb rest true (i + 1)
            have hstep : LogRec.endr "both_ended" ∈ convLoop pa pb (t :: rest) false i ↔
                LogRec.endr "both_ended" ∈ convLoop pa pb rest true (i + 1) := by
              simp [convLoop, he]
            rw [hstep, ih]
            constructor
            · rintro (⟨-, hlen, h0⟩ | ⟨j, hj, h1, h2⟩)
              · refine Or.inr ⟨0, by simpa using hlen, by simpa using he, by simpa using h0⟩
              · refine Or.inr ⟨j + 1, by simpa using Nat.succ_lt_succ hj,
                  by simpa using h1, by simpa using h2⟩
            · rintro (⟨hfalse, -, -⟩ | ⟨j, hj, h1, h2⟩)
              · exact absurd hfalse (by simp)
              · cases j with
                | zero =>
                    exact Or.inl ⟨rfl, by simp only [List.length_cons] at hj; omega,
                      by simpa using h2⟩
                | succ k =>
                    exact Or.inr ⟨k, by simp only [List.length_cons] at hj ⊢; omega,
                      by simpa using h1, by simpa using h2⟩
      · have ih := convLoop_both_ended pa pb rest false (i + 1)
        have hstep : LogRec.endr "both_ended" ∈ convLoop pa pb (t :: rest) prev i ↔
            LogRec.endr "both_ended" ∈ convLoop pa pb rest false (i + 1) := by
          simp [convLoop, he]
        rw [hstep, ih]
        constructor
        · rintro (⟨hfalse, -, -⟩ | ⟨j, hj, h1, h2⟩)
          · exact absurd hfalse (by simp)
          · exact Or.inr ⟨j + 1, by simpa using Nat.succ_lt_succ hj,
              by simpa using h1, by simpa using h2⟩
        · rintro (⟨-, -, h0⟩ | ⟨j, hj, h1, h2⟩)
          · exact absurd (by simpa using h0) he
          · cases j with
            | zero => exact absurd (by simpa using h1) he
            | succ k =>
                exact Or.inr ⟨k, by simp only [List.length_cons] at hj ⊢; omega,
                  by simpa using h1, by simpa using h2⟩

/-- The turn loop emits exactly one end record: max_turns appears exactly
when both_ended does not (the loop stops at the close). -/
theorem convLoop_end_unique (pa pb : String) :
    ∀ (ts : List (List String)) (prev : Bool) (i : Nat),
      LogRec.endr "max_turns" ∈ convLoop pa pb ts prev i ↔
        LogRec.endr "both_ended" ∉ convLoop pa pb ts prev i
  | [], prev, i => by simp [convLoop]
  | t :: rest, prev, i => by
      by_cases he : "end_conversation" ∈ t
      · cases prev with
        | true => simp [convLoop, he]
        | false => simpa [convLoop, he] using convLoop_end_unique pa pb rest true (i + 1)
      · simpa [convLoop, he] using convLoop_end_unique pa pb rest false (i + 1)

/-- C1.  In run_conversation the both_ended close happens exactly when some
turn uses end_conversation and the immediately following turn uses it too
(non-consecutive uses never close, since a turn without end_conversation
resets the pending flag); when it happens the loop stops, so the max_turns
end record is absent, and conversely. -/
theorem C1_mutual_end_consensus (pa pb : String) (ts : List (List String)) :
    (LogRec.endr "both_ended" ∈ convLog pa pb ts ↔
      ∃ j, j + 1 < ts.length ∧ "end_conversation" ∈ ts.getD j [] ∧
        "end_conversation" ∈ ts.getD (j + 1) []) ∧
    (LogRec.endr "both_ended" ∈ convLog pa pb ts ↔
      LogRec.endr "max_turns" ∉ convLog pa pb ts) := by
  have hlog : ∀ r : String, (LogRec.endr r ∈ convLog pa pb ts) ↔
      LogRec.endr r ∈ convLoop pa pb ts false 0 := by
    intro r
    simp [convLog]
  constructor
  · rw [hlog, convLoop_both_ended pa pb ts false 0]
    simp
  · rw [hlog, hlog, convLoop_end_unique pa pb ts false 0, not_not]

/-! ## C5: resume bookkeeping from the log tail -/

/-- A last turn record found by lastTurn is a record of the log. -/
theorem lastTurn_mem :
    ∀ (l : List LogRec) (i : Nat) (p : String) (t : List String),
      lastTurn l = some (i, p, t) → LogRec.turn i p t ∈ l
  | [], i, p, t => by simp [lastTurn]
  | LogRec.turn j q s :: rest, i, p, t => by
      intro h
      rw [lastTurn] at h
      cases hr : lastTurn rest with
      | none =>
          rw [hr] at h
          simp only [Option.getD_none, Option.some.injEq, Prod.mk.injEq] at h
          obtain ⟨h1, h2, h3⟩ := h
          subst h1
          subst h2
          subst h3
          exact List.mem_cons_self _ _
      | some x =>
          rw [hr] at h
          simp only [Option.getD_some, Option.some.injEq] at h
          subst h
          exact List.mem_cons_of_mem _ (lastTurn_mem rest i p t hr)
  | LogRec.start a b :: rest, i, p, t => by
      intro h
      rw [lastTurn] at h
      exact List.mem_cons_of_mem _ (lastTurn_mem rest i p t h)
  | LogRec.endr r :: rest, i, p, t => by
      intro h
      rw [lastTurn] at h
      exact List.mem_cons_of_mem _ (lastTurn_mem rest i p t h)
  | LogRec.reflect q :: rest, i, p, t => by
      intro h
      rw [lastTurn] at h
      exact List.mem_cons_of_mem _ (lastTurn_mem rest i p t h)

/-- Every turn record written by the loop carries the persona of its own
index parity: persona_a on even turn indices, persona_b on odd ones. -/
theorem convLoop_turn_parity (pa pb : String) :
    ∀ (ts : List (List String)) (prev : Bool) (i0 i : Nat) (p : String) (t : List String),
      LogRec.turn i p t ∈ convLoop pa pb ts prev i0 →
        p = (if i % 2 = 0 then pa else pb)
  | [], prev, i0, i, p, t => by simp [convLoop]
  | s :: rest, prev, i0, i, p, t => by
      intro h
      rw [convLoop] at h
      rcases List.mem_cons.mp h with hh | htail
      · rw [LogRec.turn.injEq] at hh
        obtain ⟨h1, h2, h3⟩ := hh
        subst h1
        exact h2
      · by_cases he : "end_conversation" ∈ s
        · rw [if_pos he] at htail
          cases prev with
          | true =>
              rw [if_pos rfl] at htail
              simp at htail
          | false =>
              rw [if_neg (by simp)] at htail
              exact convLoop_turn_parity pa pb rest true (i0 + 1) i p t htail
        · rw [if_neg he] at htail
          exact convLoop_turn_parity pa pb rest false (i0 + 1) i p t htail

/-- C5.  load_conversation_log on a conversation log recovers the two persona
identities from the start record and rebuilds the bookkeeping from the last
turn record: the next turn index is one past the last logged turn, the next
speaker is the persona of that index parity (hence the alternation
continues the log, whose last turn's persona matches its own parity), and
the pending-end flag holds exactly when the last turn called
end_conversation. -/
theorem C5_resume_bookkeeping (pa pb : String) (ts : List (List String))
    (i : Nat) (p : String) (tools : List String)
    (h : lastTurn (convLog pa pb ts) = some (i, p, tools)) :
    load_conversation_log (convLog pa pb ts) =
      some { persona_a := pa, persona_b := pb, next_turn := i + 1,
             next_is_a := decide ((i + 1) % 2 = 0),
             pendingEnd := decide ("end_conversation" ∈ tools) } ∧
    p = (if i % 2 = 0 then pa else pb) := by
  constructor
  · unfold load_conversation_log
    have hfs : findStart (convLog pa pb ts) = some (pa, pb) := rfl
    rw [hfs, h]
  · have hmem : LogRec.turn i p tools ∈ convLog pa pb ts := lastTurn_mem _ i p tools h
    have hloop : LogRec.turn i p tools ∈ convLoop pa pb ts false 0 := by
      simpa [convLog] using hmem
    exact convLoop_turn_parity pa pb ts false 0 i p tools hloop

/-- Witness for C5 on a concrete two-turn log. -/
theorem C5_resume_bookkeeping_witness :
    load_conversation_log (convLog "a" "b" [["end_conversation"], []]) =
      some { persona_a := "a", persona_b := "b", next_turn := 1 + 1,
             next_is_a := decide ((1 + 1) % 2 = 0),
             pendingEnd := decide ("end_conversation" ∈ ([] : List String)) } ∧
    "b" = (if 1 % 2 = 0 then "a" else "b") :=
  C5_resume_bookkeeping "a" "b" [["end_conversation"], []] 1 "b" [] (by decide)

/-! ## C3: sandbox containment -/

/-- When the canonical resolution is neither the base itself nor below it,
safe_path rejects the path. -/
theorem safe_path_eq_none (path : String) (base : List String)
    (h : ¬ ∃ t, base ++ t = resolvePath path base) :
    safe_path path base = none := by
  have hdef : safe_path path base =
      (if startsWithL base (resolvePath path base) then some (resolvePath path base)
       else none) := rfl
  rw [hdef, if_neg]
  intro hs
  exact h ((startsWithL_iff base (resolvePath path base)).mp hs)

/-- C3.  For every filesystem tool and every caller-supplied path whose
canonical resolution is neither the workspace root nor a descendant of it
(no suffix extends the root to the resolution), the tool returns the fixed
sandbox-violation string and leaves the filesystem untouched. -/
theorem C3_sandbox_rejection (path content search rep pattern : String)
    (base : List String) (offset limit : Option Int) (mt : List String → String)
    (fs : List (List String × Entry))
    (h : ¬ ∃ t, base ++ t = resolvePath path base) :
    read_file path base offset limit fs = (sandboxError, fs) ∧
    write_file path content base fs = (sandboxError, fs) ∧
    append_file path content base fs = (sandboxError, fs) ∧
    edit_file path search rep base fs = (sandboxError, fs) ∧
    delete_file path base fs = (sandboxError, fs) ∧
    list_files path base fs = (sandboxError, fs) ∧
    mkdir path base fs = (sandboxError, fs) ∧
    grep_file path pattern base fs = (sandboxError, fs) ∧
    file_info path base mt fs = (sandboxError, fs) := by
  have hs := safe_path_eq_none path base h
  refine ⟨?_, ?_, ?_, ?_, ?_, ?_, ?_, ?_, ?_⟩ <;>
    simp only [read_file, write_file, append_file, edit_file, delete_file,
      list_files, mkdir, grep_file, file_info, hs]

/-- Witness for C3 on the parent-traversal path "../../etc/passwd". -/
theorem C3_sandbox_rejection_witness :
    read_file "../../etc/passwd" ["home", "ws"] none none [] = (sandboxError, []) ∧
    write_file "../../etc/passwd" "x" ["home", "ws"] [] = (sandboxError, []) ∧
    append_file "../../etc/passwd" "x" ["home", "ws"] [] = (sandboxError, []) ∧
    edit_file "../../etc/passwd" "a" "b" ["home", "ws"] [] = (sandboxError, []) ∧
    delete_file "../../etc/passwd" ["home", "ws"] [] = (sandboxError, []) ∧
    list_files "../../etc/passwd" ["home", "ws"] [] = (sandboxError, []) ∧
    mkdir "../../etc/passwd" ["home", "ws"] [] = (sandboxError, []) ∧
    grep_file "../../etc/passwd" "a" ["home", "ws"] [] = (sandboxError, []) ∧
    file_info "../../etc/passwd" ["home", "ws"] mtStub [] = (sandboxError, []) :=
  C3_sandbox_rejection "../../etc/passwd" "x" "a" "b" "a" ["home", "ws"] none none mtStub []
    (fun hex => absurd ((startsWithL_iff _ _).mpr hex) (by decide))

/-! ## C4: missing required parameters -/

/-- Any member of a joined list occurs inside the joined string. -/
theorem pyJoin_data_decomp (sep : String) :
    ∀ (l : List String) (m : String), m ∈ l →
      ∃ u v, (pyJoin sep l).data = u ++ m.data ++ v
  | [], m => by simp
  | [x], m => by
      intro h
      rcases List.mem_singleton.mp h with rfl
      exact ⟨[], [], by simp [pyJoin]⟩
  | x :: y :: rest, m => by
      intro h
      rcases List.mem_cons.mp h with rfl | h2
      · exact ⟨[], (sep ++ pyJoin sep (y :: rest)).data,
          by simp [pyJoin, List.append_assoc]⟩
      · obtain ⟨u, v, huv⟩ := pyJoin_data_decomp sep (y :: rest) m h2
        exact ⟨(x ++ sep).data ++ u, v,
          by simp [pyJoin, huv, List.append_assoc]⟩

/-- C4.  For a tool with a non-empty required set and arguments missing at
least one required name, call_tool returns the formatted validation message —
which contains the tool name and every missing parameter name — and leaves
both stores untouched: the handler is never reached. -/
theorem C4_missing_required (name : String) (args : List (String × Value)) (net : Net)
    (mt : List String → String) (wsRoot : List String) (mem : List (String × String))
    (ws : List (List String × Entry))
    (hreq : schemaRequired name ≠ [])
    (hmiss : (schemaRequired name).filter (fun r => !argHas args r) ≠ []) :
    call_tool net mt name args wsRoot mem ws =
      ("エラー: " ++ name ++ "() に必須パラメータが不足: " ++
        pyJoin ", " ((schemaRequired name).filter (fun r => !argHas args r)) ++
        "。必要: " ++ pyJoin ", " (schemaRequired name), mem, ws) ∧
    (∃ u v, (call_tool net mt name args wsRoot mem ws).1.data = u ++ name.data ++ v) ∧
    (∀ m ∈ (schemaRequired name).filter (fun r => !argHas args r),
      ∃ u v, (call_tool net mt name args wsRoot mem ws).1.data = u ++ m.data ++ v) := by
  have hval : validate_args name args =
      some ("エラー: " ++ name ++ "() に必須パラメータが不足: " ++
        pyJoin ", " ((schemaRequired name).filter (fun r => !argHas args r)) ++
        "。必要: " ++ pyJoin ", " (schemaRequired name)) := by
    unfold validate_args
    rw [if_neg hmiss]
  have hct : call_tool net mt name args wsRoot mem ws =
      ("エラー: " ++ name ++ "() に必須パラメータが不足: " ++
        pyJoin ", " ((schemaRequired name).filter (fun r => !argHas args r)) ++
        "。必要: " ++ pyJoin ", " (schemaRequired name), mem, ws) := by
    unfold call_tool
    rw [hval]
  refine ⟨hct, ?_, ?_⟩
  · rw [hct]
    refine ⟨"エラー: ".data,
      ("() に必須パラメータが不足: " ++
        pyJoin ", " ((schemaRequired name).filter (fun r => !argHas args r)) ++
        "。必要: " ++ pyJoin ", " (schemaRequired name)).data, ?_⟩
    simp [List.append_assoc]
  · intro m hm
    rw [hct]
    obtain ⟨u, v, huv⟩ := pyJoin_data_decomp ", "
      ((schemaRequired name).filter (fun r => !argHas args r)) m hm
    refine ⟨("エラー: " ++ name ++ "() に必須パラメータが不足: ").data ++ u,
      v ++ ("。必要: " ++ pyJoin ", " (schemaRequired name)).data, ?_⟩
    simp [huv, List.append_assoc]

/-- Witness for C4: edit_file called with only "path" is rejected naming
"search" and "replace", with no store change. -/
theorem C4_missing_required_witness :
    call_tool netStub mtStub "edit_file" [("path", Value.str "a")] [] [] [] =
      ("エラー: " ++ "edit_file" ++ "() に必須パラメータが不足: " ++
        pyJoin ", " ((schemaRequired "edit_file").filter
          (fun r => !argHas [("path", Value.str "a")] r)) ++
        "。必要: " ++ pyJoin ", " (schemaRequired "edit_file"), [], []) ∧
    (∃ u v, (call_tool netStub mtStub "edit_file" [("path", Value.str "a")] [] [] []).1.data =
      u ++ "edit_file".data ++ v) ∧
    (∀ m ∈ (schemaRequired "edit_file").filter (fun r => !argHas [("path", Value.str "a")] r),
      ∃ u v, (call_tool netStub mtStub "edit_file" [("path", Value.str "a")] [] [] []).1.data =
        u ++ m.data ++ v) :=
  C4_missing_required "edit_file" [("path", Value.str "a")] netStub mtStub [] [] []
    (by decide) (by decide)

/-! ## C6: edit_file exact-substring search/replace -/

/-- The containment scanner agrees with positivity of the occurrence count. -/
theorem containsAux_eq_count_pos (p : Char) (pt : List Char) :
    ∀ s : List Char, containsAux (p :: pt) s = decide (0 < countAux p pt s 0)
  | [] => by simp [containsAux, countAux]
  | c :: rest => by
      have hcnt : countAux p pt (c :: rest) 0 =
          (if startsWithL (p :: pt) (c :: rest) then 1 + countAux p pt rest pt.length
           else countAux p pt rest 0) := rfl
      by_cases hw : startsWithL (p :: pt) (c :: rest) = true
      · rw [containsAux, hw, hcnt, if_pos hw, Bool.true_or]
        exact (decide_eq_true (by omega)).symm
      · have hwf : startsWithL (p :: pt) (c :: rest) = false := by
          simpa using hw
        rw [containsAux, hwf, hcnt, if_neg hw, Bool.false_or]
        exact containsAux_eq_count_pos p pt rest

/-- Python containment agrees with positivity of the Python count. -/
theorem pyContains_eq_count_pos (s pat : List Char) :
    pyContains s pat = decide (0 < pyCount s pat) := by
  cases pat with
  | nil =>
      have hp : (0 : Nat) < s.length + 1 := by omega
      simp [pyContains, pyCount, hp]
  | cons p pt =>
      simp [pyContains, pyCount, containsAux_eq_count_pos p pt s]

/-- Replacing the first occurrence of a contained non-empty pattern splits
the string around that occurrence. -/
theorem replaceAux_decomp (p : Char) (pt rep : List Char) :
    ∀ s : List Char, containsAux (p :: pt) s = true →
      ∃ u v, s = u ++ (p :: pt) ++ v ∧ replaceAux p pt rep s = u ++ rep ++ v
  | [] => by simp [containsAux]
  | c :: rest => by
      intro h
      by_cases hw : startsWithL (p :: pt) (c :: rest) = true
      · obtain ⟨t, ht⟩ := (startsWithL_iff _ _).mp hw
        rw [List.cons_append] at ht
        injection ht with h1 h2
        refine ⟨[], t, ?_, ?_⟩
        · rw [List.nil_append, List.cons_append, h1, h2]
        · rw [replaceAux, if_pos hw, ← h2, List.drop_left, List.nil_append]
      · rw [containsAux, Bool.or_eq_true] at h
        rcases h with h | h
        · exact absurd h hw
        · obtain ⟨u, v, hs, hr⟩ := replaceAux_decomp p pt rep rest h
          refine ⟨c :: u, v, ?_, ?_⟩
          · rw [hs]
            simp [List.append_assoc]
          · rw [replaceAux, if_neg hw, hr]
            simp [List.append_assoc]

/-- A string with a positive occurrence count splits around the first
occurrence, and first-occurrence replacement substitutes exactly there. -/
theorem pyReplace1_decomp (s pat rep : List Char) (h : 0 < pyCount s pat) :
    ∃ u v, s = u ++ pat ++ v ∧ pyReplace1 s pat rep = u ++ rep ++ v := by
  cases pat with
  | nil => exact ⟨[], s, by simp, by simp [pyReplace1]⟩
  | cons p pt =>
      have hc : containsAux (p :: pt) s = true := by
        rw [containsAux_eq_count_pos]
        exact decide_eq_true (by simpa [pyCount] using h)
      exact replaceAux_decomp p pt rep s hc

/-- C6.  On a workspace file whose content is `c`: when the search string
occurs 0 times edit_file reports an error (one of the two missing-search
messages) and the filesystem is unchanged; when it occurs 2 or more times it
reports the ambiguity error naming the count and the filesystem is unchanged;
when it occurs exactly once it reports success and persists the content with
that single occurrence replaced. -/
theorem C6_edit_file_occurrences (path search rep : String) (base : List String)
    (fs : List (List String × Entry)) (r : List String) (c : String)
    (hsp : safe_path path base = some r)
    (hf : fsGet fs r = some (Entry.file c)) :
    (pyCount c.data search.data = 0 →
      ((edit_file path search rep base fs).1 = "エラー: 検索文字列が見つかりません" ∨
       (edit_file path search rep base fs).1 =
         "エラー: 検索文字列が見つかりません（空白やインデントが異なる可能性があります）") ∧
      (edit_file path search rep base fs).2 = fs) ∧
    (2 ≤ pyCount c.data search.data →
      (edit_file path search rep base fs).1 =
        "エラー: 検索文字列が" ++ toString (pyCount c.data search.data) ++
          "箇所見つかりました。より具体的な文字列を指定してください" ∧
      (edit_file path search rep base fs).2 = fs) ∧
    (pyCount c.data search.data = 1 →
      (edit_file path search rep base fs).1 = "編集完了: " ++ path ∧
      ∃ u v, c.data = u ++ search.data ++ v ∧
        (edit_file path search rep base fs).2 =
          fsSet fs r (Entry.file (String.mk (u ++ rep.data ++ v)))) := by
  have hE : edit_file path search rep base fs =
      (if pyContains c.data search.data = false then
        (if pyContains (pyNormWs c).data (pyNormWs search).data = false then
          ("エラー: 検索文字列が見つかりません", fs)
        else ("エラー: 検索文字列が見つかりません（空白やインデントが異なる可能性があります）", fs))
      else if pyCount c.data search.data > 1 then
        ("エラー: 検索文字列が" ++ toString (pyCount c.data search.data) ++
          "箇所見つかりました。より具体的な文字列を指定してください", fs)
      else
        ("編集完了: " ++ path,
          fsSet fs r (Entry.file (String.mk (pyReplace1 c.data search.data rep.data))))) := by
    simp only [edit_file, hsp, hf]
  refine ⟨?_, ?_, ?_⟩
  · intro h0
    have hcf : pyContains c.data search.data = false := by
      rw [pyContains_eq_count_pos, h0]
      simp
    rw [hE, if_pos hcf]
    by_cases hn : pyContains (pyNormWs c).data (pyNormWs search).data = false
    · rw [if_pos hn]
      exact ⟨Or.inl rfl, rfl⟩
    · rw [if_neg hn]
      exact ⟨Or.inr rfl, rfl⟩
  · intro h2
    have hct : pyContains c.data search.data = true := by
      rw [pyContains_eq_count_pos]
      exact decide_eq_true (by omega)
    rw [hE, if_neg (by simp [hct]), if_pos (by omega)]
    exact ⟨rfl, rfl⟩
  · intro h1
    have hct : pyContains c.data search.data = true := by
      rw [pyContains_eq_count_pos]
      exact decide_eq_true (by omega)
    rw [hE, if_neg (by simp [hct]), if_neg (by omega)]
    obtain ⟨u, v, hs, hr⟩ := pyReplace1_decomp c.data search.data rep.data (by omega)
    exact ⟨rfl, u, v, hs, by rw [hr]⟩

/-- Witness for C6 on the file "f.txt" with content "abc" and the unique
occurrence of "b" replaced by "X". -/
theorem C6_edit_file_occurrences_witness :
    (pyCount "abc".data "b".data = 0 →
      ((edit_file "f.txt" "b" "X" ["ws"] [(["ws", "f.txt"], Entry.file "abc")]).1 =
         "エラー: 検索文字列が見つかりません" ∨
       (edit_file "f.txt" "b" "X" ["ws"] [(["ws", "f.txt"], Entry.file "abc")]).1 =
         "エラー: 検索文字列が見つかりません（空白やインデントが異なる可能性があります）") ∧
      (edit_file "f.txt" "b" "X" ["ws"] [(["ws", "f.txt"], Entry.file "abc")]).2 =
        [(["ws", "f.txt"], Entry.file "abc")]) ∧
    (2 ≤ pyCount "abc".data "b".data →
      (edit_file "f.txt" "b" "X" ["ws"] [(["ws", "f.txt"], Entry.file "abc")]).1 =
        "エラー: 検索文字列が" ++ toString (pyCount "abc".data "b".data) ++
          "箇所見つかりました。より具体的な文字列を指定してください" ∧
      (edit_file "f.txt" "b" "X" ["ws"] [(["ws", "f.txt"], Entry.file "abc")]).2 =
        [(["ws", "f.txt"], Entry.file "abc")]) ∧
    (pyCount "abc".data "b".data = 1 →
      (edit_file "f.txt" "b" "X" ["ws"] [(["ws", "f.txt"], Entry.file "abc")]).1 =
        "編集完了: " ++ "f.txt" ∧
      ∃ u v, "abc".data = u ++ "b".data ++ v ∧
        (edit_file "f.txt" "b" "X" ["ws"] [(["ws", "f.txt"], Entry.file "abc")]).2 =
          fsSet [(["ws", "f.txt"], Entry.file "abc")] ["ws", "f.txt"]
            (Entry.file (String.mk (u ++ "X".data ++ v)))) :=
  C6_edit_file_occurrences "f.txt" "b" "X" ["ws"] [(["ws", "f.txt"], Entry.file "abc")]
    ["ws", "f.txt"] "abc" (by decide) (by decide)
